import Mathlib

/-!
Verification of the Certification-Tracker repository's core logic.

The development shallowly embeds the repository's data model and operations:

* `client/src/lib/localData.ts` — the certification store
  (`getCertificationsByUser`, `createCertification`, `updateCertification`,
  `deleteCertification`).  The browser `localStorage` state is passed
  explicitly as a `List Certification`; each state-mutating operation
  returns the new list, and an operation that throws before calling
  `saveCerts` leaves the list unchanged.
* `client/src/lib/localAuth.ts` — the user store (`registerLocal`,
  `loginLocal`, `getAllUsers`), with the keyed record object modelled as an
  association list from username to stored user.
* the expiration-status logic repeated across the views
  (`certification-card.tsx`, the renewals page, the user/admin dashboards,
  `pages/user/certifications.tsx`, `pages/admin/expiring.tsx`).  Calendar
  dates are modelled as integer day numbers, so the whole-day difference
  `differenceInDays(parseISO(d1), d2)` of date-fns becomes integer
  subtraction; every classification function in the source consumes only
  that whole-day difference, which each embedded view receives either
  directly or through a `daysUntil : Certification → Int` parameter
  standing for `differenceInDays(parseISO(c.expirationDate), now)`.
-/

namespace CertTrack

/-- JavaScript `x || d` for an optional string `x` (the `data.field || dflt`
idiom of `createCertification`): an absent value and the empty string are
falsy and fall through to the default. -/
def jsOr (x : Option String) (d : String) : String :=
  match x with
  | some s => if s = "" then d else s
  | none => d

/-- JavaScript `x || d` where `x` is an optional key whose value may itself
be `undefined` (a key of `Partial<Certification>` for an optional column):
`some (some s)` is a present key with a string value, `some none` a present
key holding `undefined`, `none` an absent key. -/
def jsOrOpt (x : Option (Option String)) (d : String) : String :=
  match x with
  | some (some s) => if s = "" then d else s
  | some none => d
  | none => d

/-- A stored certification record (`@shared/schema` as used by
`localData.ts`): `credentialId`, `certificateUrl` and `notes` are optional
columns, so an absent (`undefined`) value is `none`. -/
structure Certification where
  id : String
  userId : String
  name : String
  issuingOrganization : String
  issueDate : String
  expirationDate : String
  credentialId : Option String
  certificateUrl : Option String
  notes : Option String
deriving DecidableEq, Repr

/-- A `Partial<Certification>`: every key may be absent.  For the optional
columns a present key may still hold `undefined` (`some none`). -/
structure CertPatch where
  id : Option String
  userId : Option String
  name : Option String
  issuingOrganization : Option String
  issueDate : Option String
  expirationDate : Option String
  credentialId : Option (Option String)
  certificateUrl : Option (Option String)
  notes : Option (Option String)
deriving DecidableEq, Repr

/-- The empty partial `{}`. -/
def emptyPatch : CertPatch :=
  { id := none, userId := none, name := none, issuingOrganization := none
  , issueDate := none, expirationDate := none, credentialId := none
  , certificateUrl := none, notes := none }

/-- Reading one record by id: `certs.find((c) => c.id === id)`, the lookup
a view performs on the result of `list()`. -/
def getCertById (certs : List Certification) (i : String) : Option Certification :=
  certs.find? (fun c => c.id = i)

/-- Embedding of `getCertificationsByUser` (`localData.ts`): the argument
has type `string | null | undefined` and the guard `if (!userId) return []`
treats `undefined`, `null` and the empty string alike as falsy; otherwise
the store is filtered by `c.userId === userId`. -/
def getCertificationsByUser (certs : List Certification) (userId : Option String) :
    List Certification :=
  match userId with
  | none => []
  | some u => if u = "" then [] else certs.filter (fun c => c.userId = u)

/-- Embedding of `createCertification` (`localData.ts`).  `genId` is the
value produced by `uuidv4()` and `today` the value of
`new Date().toISOString().slice(0, 10)`, both inputs of the embedding
because they come from the environment.  The object literal assigns
`credentialId: data.credentialId || ""` but contains no `certificateUrl`
or `notes` key (the record is cast `as Certification`), and the new record
is pushed at the end of the list.  Returns the saved list and the new
record. -/
def createCertification (certs : List Certification) (genId today : String)
    (data : CertPatch) : List Certification × Certification :=
  let cert : Certification :=
    { id := genId
    , userId := jsOr data.userId ""
    , name := jsOr data.name ""
    , issuingOrganization := jsOr data.issuingOrganization ""
    , credentialId := some (jsOrOpt data.credentialId "")
    , issueDate := jsOr data.issueDate today
    , expirationDate := jsOr data.expirationDate today
    , certificateUrl := none
    , notes := none }
  (certs ++ [cert], cert)

/-- The spread merge `{ ...certs[idx], ...data }`: every key present in the
partial overrides the stored value, keys absent from the partial keep it. -/
def applyPatch (c : Certification) (p : CertPatch) : Certification :=
  { id := p.id.getD c.id
  , userId := p.userId.getD c.userId
  , name := p.name.getD c.name
  , issuingOrganization := p.issuingOrganization.getD c.issuingOrganization
  , issueDate := p.issueDate.getD c.issueDate
  , expirationDate := p.expirationDate.getD c.expirationDate
  , credentialId := p.credentialId.getD c.credentialId
  , certificateUrl := p.certificateUrl.getD c.certificateUrl
  , notes := p.notes.getD c.notes }

/-- Embedding of `updateCertification` (`localData.ts`): `findIndex` locates
the first record whose id matches; if none matches the function throws
`new Error("Not found")` before any write, otherwise the record at that
index is replaced by the spread merge, the list is saved and the merged
record returned. -/
def updateCertification : List Certification → String → CertPatch →
    Except String (List Certification × Certification)
  | [], _, _ => .error "Not found"
  | c :: cs, i, p =>
    if c.id = i then
      .ok (applyPatch c p :: cs, applyPatch c p)
    else
      match updateCertification cs i p with
      | .error e => .error e
      | .ok (cs2, m) => .ok (c :: cs2, m)

/-- Embedding of `deleteCertification` (`localData.ts`):
`certs.filter((c) => c.id !== id)` is saved back; a missing id means the
filter removes nothing. -/
def deleteCertification (certs : List Certification) (i : String) :
    List Certification :=
  certs.filter (fun c => c.id ≠ i)

/-- The five urgency buckets of the status classifier. -/
inductive Status where
  | expired
  | critical
  | warning
  | soon
  | active
deriving DecidableEq, Repr

/-- Embedding of `getStatusInfo` in `certification-card.tsx` as a function
of `daysUntilExpiration = differenceInDays(parseISO(expirationDate), now)`:
the cascade of `if (days < 0) / else if (days <= 30) / else if (days <= 60)
/ else if (days <= 90) / else`. -/
def getStatusInfo (days : Int) : Status :=
  if days < 0 then .expired
  else if days ≤ 30 then .critical
  else if days ≤ 60 then .warning
  else if days ≤ 90 then .soon
  else .active

/-- date-fns `differenceInDays(dateLeft, dateRight)` on calendar dates
modelled as integer day numbers: the signed whole-day difference. -/
def differenceInDays (dateLeft dateRight : Int) : Int :=
  dateLeft - dateRight

/-- The status classifier of the spec: classify an expiration date against
`now`, both calendar dates as day numbers. -/
def classify (expirationDate now : Int) : Status :=
  getStatusInfo (differenceInDays expirationDate now)

/-- Bucket predicate of `categorizedCerts.expired` on the renewals page:
`days < 0`. -/
def renewalsExpired (days : Int) : Bool :=
  days < 0

/-- Bucket predicate of `categorizedCerts.critical` on the renewals page:
`days >= 0 && days <= 30`. -/
def renewalsCritical (days : Int) : Bool :=
  0 ≤ days && days ≤ 30

/-- Bucket predicate of `categorizedCerts.warning` on the renewals page:
`days > 30 && days <= 60`. -/
def renewalsWarning (days : Int) : Bool :=
  30 < days && days ≤ 60

/-- Bucket predicate of `categorizedCerts.upcoming` on the renewals page:
`days > 60 && days <= 90`. -/
def renewalsUpcoming (days : Int) : Bool :=
  60 < days && days ≤ 90

/-- Embedding of `categorizedCerts` on the renewals page: the four filters
of the certification list, with `daysUntil` standing for the day difference
computed per record. -/
def categorizedCerts (daysUntil : Certification → Int)
    (certs : List Certification) :
    List Certification × List Certification × List Certification × List Certification :=
  ( certs.filter (fun c => renewalsExpired (daysUntil c))
  , certs.filter (fun c => renewalsCritical (daysUntil c))
  , certs.filter (fun c => renewalsWarning (daysUntil c))
  , certs.filter (fun c => renewalsUpcoming (daysUntil c)) )

/-- The time-filter tabs of the admin expiring page
(`pages/admin/expiring.tsx`). -/
inductive TimeFilter where
  | days30
  | days60
  | days90
  | expired
  | all
deriving DecidableEq, Repr

/-- The `switch (timeFilter)` inside `getExpiringCerts` on the admin
expiring page: note every bounded case requires `days > 0`. -/
def timeFilterPred (tf : TimeFilter) (days : Int) : Bool :=
  match tf with
  | .days30 => 0 < days && days ≤ 30
  | .days60 => 0 < days && days ≤ 60
  | .days90 => 0 < days && days ≤ 90
  | .expired => days < 0
  | .all => days ≤ 90

/-- The `stats.within30` counter of the admin expiring page:
`days > 0 && days <= 30`. -/
def adminWithin30 (days : Int) : Bool :=
  0 < days && days ≤ 30

/-- The status-filter options of the certification list pages. -/
inductive StatusFilter where
  | all
  | active
  | expiring
  | expired
deriving DecidableEq, Repr

/-- The `switch (statusFilter)` of `filteredCertifications` in
`pages/user/certifications.tsx` (the admin page uses the same cases):
active is `days > 90`, expiring is `days > 0 && days <= 90`, expired is
`days < 0`, and the default case keeps everything. -/
def statusFilterPred (f : StatusFilter) (days : Int) : Bool :=
  match f with
  | .all => true
  | .active => 90 < days
  | .expiring => 0 < days && days ≤ 90
  | .expired => days < 0

/-- Whether the character list `hay` starts with `needle`. -/
def charsStartWith : List Char → List Char → Bool
  | [], _ => true
  | _ :: _, [] => false
  | n :: ns, h :: hs => n = h && charsStartWith ns hs

/-- Whether `needle` occurs contiguously inside `hay`. -/
def charsHasSub (needle : List Char) : List Char → Bool
  | [] => needle.isEmpty
  | h :: t => charsStartWith needle (h :: t) || charsHasSub needle t

/-- JavaScript `hay.includes(needle)` on strings. -/
def strIncludes (hay needle : String) : Bool :=
  charsHasSub needle.data hay.data

/-- JavaScript `s.toLowerCase()`, character by character (the search terms
of this application are ASCII). -/
def strToLower (s : String) : String :=
  ⟨s.data.map Char.toLower⟩

/-- The `matchesSearch` predicate of `filteredCertifications`:
case-insensitive substring match on the name, the organization, or — when
present — the credential id (`cert.credentialId?.toLowerCase()
.includes(...) ?? false`). -/
def matchesSearch (search : String) (cert : Certification) : Bool :=
  strIncludes (strToLower cert.name) (strToLower search) ||
  strIncludes (strToLower cert.issuingOrganization) (strToLower search) ||
  (match cert.credentialId with
   | some cid => strIncludes (strToLower cid) (strToLower search)
   | none => false)

/-- Embedding of `filteredCertifications` in
`pages/user/certifications.tsx`: a record passes when it matches the
search text and its day difference passes the status filter. -/
def filteredCertifications (daysUntil : Certification → Int) (search : String)
    (statusFilter : StatusFilter) (certs : List Certification) :
    List Certification :=
  certs.filter (fun cert =>
    matchesSearch search cert && statusFilterPred statusFilter (daysUntil cert))

/-- The `stats.active` predicate of the user dashboard: `days > 90`. -/
def statsActive (days : Int) : Bool :=
  90 < days

/-- The `stats.expiringSoon` predicate of the user dashboard:
`days > 0 && days <= 90`. -/
def statsExpiringSoon (days : Int) : Bool :=
  0 < days && days ≤ 90

/-- The `stats.expired` predicate of the user dashboard: `days < 0`. -/
def statsExpired (days : Int) : Bool :=
  days < 0

/-- A stored user record (`localAuth.ts`: `User & { password?: string }`).
The optional `password` key is `none` when absent. -/
structure StoredUser where
  id : String
  username : String
  fullName : String
  email : String
  role : String
  password : Option String
deriving DecidableEq, Repr

/-- The public projection of a user, as returned by every read operation:
no password field exists in this type. -/
structure PublicUser where
  id : String
  username : String
  fullName : String
  email : String
  role : String
deriving DecidableEq, Repr

/-- The destructuring `const { password, ...publicUser } = user` used by
`registerLocal`, `loginLocal` and `getAllUsers`. -/
def stripPassword (u : StoredUser) : PublicUser :=
  { id := u.id, username := u.username, fullName := u.fullName
  , email := u.email, role := u.role }

/-- The `Record<string, StoredUser>` of `localAuth.ts`, keyed by username,
as an association list in insertion order (so `Object.keys(users).length`
is the list length and `Object.values` the second components). -/
abbrev UserStore := List (String × StoredUser)

/-- The property access `users[username]`. -/
def findUser (us : UserStore) (username : String) : Option StoredUser :=
  (us.find? (fun p => p.1 = username)).map Prod.snd

/-- The input record of `registerLocal`. -/
structure RegisterData where
  username : String
  password : String
  fullName : String
  email : String
deriving DecidableEq, Repr

/-- The record built by `registerLocal` for a fresh username: the id is
`String(Object.keys(users).length + 1)`, the role always `user`, the
password stored as supplied. -/
def regUser (us : UserStore) (d : RegisterData) : StoredUser :=
  { id := toString (us.length + 1), username := d.username
  , fullName := d.fullName, email := d.email, role := "user"
  , password := some d.password }

/-- Embedding of `registerLocal` (`localAuth.ts`) in state-passing form: if
the username already exists the function throws `409: Username already
exists` before any write, so the store is returned unchanged; otherwise
the new record is inserted under the username, saved, and the public
projection returned. -/
def registerLocal (us : UserStore) (d : RegisterData) :
    Except String PublicUser × UserStore :=
  match findUser us d.username with
  | some _ => (.error "409: Username already exists", us)
  | none => (.ok (stripPassword (regUser us d)), us ++ [(d.username, regUser us d)])

/-- Embedding of `loginLocal` (`localAuth.ts`): unknown username throws
`401: Invalid credentials`; a known user whose stored password is not
strictly equal to the supplied one throws the same; otherwise the public
projection is returned.  The store is never written. -/
def loginLocal (us : UserStore) (username password : String) :
    Except String PublicUser :=
  match findUser us username with
  | none => .error "401: Invalid credentials"
  | some user =>
    if user.password = some password then .ok (stripPassword user)
    else .error "401: Invalid credentials"

/-- Embedding of `getAllUsers` (`localAuth.ts`):
`Object.values(users).map` of the password-stripping destructuring. -/
def getAllUsers (us : UserStore) : List PublicUser :=
  us.map (fun p => stripPassword p.2)

/-- The partial `{ expirationDate: X }` used by the renew flow. -/
def expPatch (x : String) : CertPatch :=
  { emptyPatch with expirationDate := some x }

/-- The partial `{ userId: u }`. -/
def userIdPatch (u : String) : CertPatch :=
  { emptyPatch with userId := some u }

/-- A partial carrying every key of a full certification record. -/
def fullPatchOf (v : Certification) : CertPatch :=
  { id := some v.id, userId := some v.userId, name := some v.name
  , issuingOrganization := some v.issuingOrganization
  , issueDate := some v.issueDate, expirationDate := some v.expirationDate
  , credentialId := some v.credentialId
  , certificateUrl := some v.certificateUrl, notes := some v.notes }

/-- A sample stored certification for concrete evaluations. -/
def sampleCert : Certification :=
  { id := "cert-1", userId := "2", name := "AWS Solutions Architect"
  , issuingOrganization := "Amazon", issueDate := "2024-01-01"
  , expirationDate := "2026-10-11", credentialId := some "AWS-123"
  , certificateUrl := none, notes := none }

/-- A certification created without a userId: `createCertification`
defaults the owner to the empty string. -/
def orphanCert : Certification :=
  { id := "cert-2", userId := "", name := "PMP"
  , issuingOrganization := "PMI", issueDate := "2024-01-01"
  , expirationDate := "2026-10-11", credentialId := some ""
  , certificateUrl := none, notes := none }

/-- The seeded demo admin account of `loadUsers` (`localAuth.ts`). -/
def demoAdmin : StoredUser :=
  { id := "1", username := "admin", fullName := "Administrator"
  , email := "admin@example.com", role := "admin", password := some "admin123" }

/-- The seeded demo user account of `loadUsers` (`localAuth.ts`). -/
def demoJohn : StoredUser :=
  { id := "2", username := "john", fullName := "John Doe"
  , email := "john@example.com", role := "user", password := some "user123" }

/-- The seeded demo store of `loadUsers`. -/
def demoUsers : UserStore :=
  [("admin", demoAdmin), ("john", demoJohn)]

/-- A concrete registration input. -/
def regAlice1 : RegisterData :=
  { username := "alice", password := "pw1", fullName := "Alice A"
  , email := "alice@example.com" }

/-- A second registration input reusing the same username. -/
def regAlice2 : RegisterData :=
  { username := "alice", password := "pw2", fullName := "Alice Again"
  , email := "alice2@example.com" }

/-- The stored record produced by registering `regAlice1` on an empty
store. -/
def aliceUser : StoredUser :=
  { id := "1", username := "alice", fullName := "Alice A"
  , email := "alice@example.com", role := "user", password := some "pw1" }

end CertTrack

namespace CertTrack

lemma charsHasSub_nil (l : List Char) : charsHasSub [] l = true := by
  cases l <;> rfl

lemma matchesSearch_empty (cert : Certification) :
    matchesSearch "" cert = true := by
  have h : ∀ s : String, strIncludes s "" = true := by
    intro s
    have hd : ("" : String).data = [] := rfl
    simp [strIncludes, hd, charsHasSub_nil]
  have hlow : strToLower "" = "" := rfl
  simp [matchesSearch, hlow, h]

lemma getCertById_id {certs : List Certification} {i : String}
    {c : Certification} (h : getCertById certs i = some c) : c.id = i := by
  have := List.find?_some h
  simpa using this

lemma getCertById_append_cons {pre post : List Certification}
    {m : Certification} {i : String} (hpre : ∀ d ∈ pre, d.id ≠ i)
    (hm : m.id = i) :
    getCertById (pre ++ m :: post) i = some m := by
  induction pre with
  | nil => simp [getCertById, List.find?_cons_of_pos, hm]
  | cons d ds ih =>
    have hd : d.id ≠ i := hpre d (by simp)
    have ih2 := ih (fun e he => hpre e (by simp [he]))
    simpa [getCertById, List.find?_cons_of_neg, hd] using ih2

lemma updateCertification_found {certs : List Certification} {i : String}
    {c : Certification} (p : CertPatch) (h : getCertById certs i = some c) :
    ∃ pre post, certs = pre ++ c :: post ∧ (∀ d ∈ pre, d.id ≠ i) ∧
      updateCertification certs i p =
        .ok (pre ++ applyPatch c p :: post, applyPatch c p) := by
  induction certs with
  | nil => simp [getCertById] at h
  | cons c0 cs ih =>
    by_cases h0 : c0.id = i
    · have hc : c = c0 := by
        simp [getCertById, List.find?_cons_of_pos, h0] at h
        exact h.symm
      refine ⟨[], cs, by simp [hc], by simp, ?_⟩
      simp [updateCertification, h0, hc]
    · have h2 : getCertById cs i = some c := by
        simpa [getCertById, List.find?_cons_of_neg, h0] using h
      obtain ⟨pre, post, hsplit, hpre, hupd⟩ := ih h2
      refine ⟨c0 :: pre, post, by simp [hsplit], ?_, ?_⟩
      · intro d hd
        rcases List.mem_cons.mp hd with h | h
        · simpa [h] using h0
        · exact hpre d h
      · simp [updateCertification, h0, hupd]

lemma updateCertification_notFound {certs : List Certification} {i : String}
    (p : CertPatch) (h : getCertById certs i = none) :
    updateCertification certs i p = .error "Not found" := by
  induction certs with
  | nil => rfl
  | cons c0 cs ih =>
    by_cases h0 : c0.id = i
    · simp [getCertById, List.find?_cons_of_pos, h0] at h
    · have h2 : getCertById cs i = none := by
        simpa [getCertById, List.find?_cons_of_neg, h0] using h
      simp [updateCertification, h0, ih h2]

lemma findUser_append {us : UserStore} {n : String} (l : UserStore)
    (h : findUser us n = none) :
    findUser (us ++ l) n = findUser l n := by
  induction us with
  | nil => simp
  | cons p ps ih =>
    by_cases hp : p.1 = n
    · simp [findUser, List.find?_cons_of_pos, hp] at h
    · have h2 : findUser ps n = none := by
        simpa [findUser, List.find?_cons_of_neg, hp] using h
      simpa [findUser, List.find?_cons_of_neg, hp] using ih h2

lemma getStatusInfo_expired_iff (d : Int) :
    getStatusInfo d = Status.expired ↔ d < 0 := by
  unfold getStatusInfo
  split_ifs <;> simp <;> omega

lemma getStatusInfo_critical_iff (d : Int) :
    getStatusInfo d = Status.critical ↔ 0 ≤ d ∧ d ≤ 30 := by
  unfold getStatusInfo
  split_ifs <;> simp <;> omega

lemma getStatusInfo_warning_iff (d : Int) :
    getStatusInfo d = Status.warning ↔ 31 ≤ d ∧ d ≤ 60 := by
  unfold getStatusInfo
  split_ifs <;> simp <;> omega

lemma getStatusInfo_soon_iff (d : Int) :
    getStatusInfo d = Status.soon ↔ 61 ≤ d ∧ d ≤ 90 := by
  unfold getStatusInfo
  split_ifs <;> simp <;> omega

lemma getStatusInfo_active_iff (d : Int) :
    getStatusInfo d = Status.active ↔ 90 < d := by
  unfold getStatusInfo
  split_ifs <;> simp <;> omega

/-- C1: the five-way status classifier has exactly the stated cut points on
the whole-day difference (days < 0 Expired, 0–30 Critical, 31–60 Warning,
61–90 Soon, > 90 Active; 30 is Critical and 31 is Warning), and the
renewals-page categorization derives its four buckets from these same cut
points.  (The "every counting view" part of the original claim is amended:
views guarded by `days > 0` exclude day 0, see the counterexample.) -/
theorem classifier_cut_points (expirationDate now : Int) :
    (classify expirationDate now = Status.expired ↔
      differenceInDays expirationDate now < 0) ∧
    (classify expirationDate now = Status.critical ↔
      0 ≤ differenceInDays expirationDate now ∧
        differenceInDays expirationDate now ≤ 30) ∧
    (classify expirationDate now = Status.warning ↔
      31 ≤ differenceInDays expirationDate now ∧
        differenceInDays expirationDate now ≤ 60) ∧
    (classify expirationDate now = Status.soon ↔
      61 ≤ differenceInDays expirationDate now ∧
        differenceInDays expirationDate now ≤ 90) ∧
    (classify expirationDate now = Status.active ↔
      90 < differenceInDays expirationDate now) ∧
    classify (now + 30) now = Status.critical ∧
    classify (now + 31) now = Status.warning ∧
    (renewalsExpired (differenceInDays expirationDate now) = true ↔
      classify expirationDate now = Status.expired) ∧
    (renewalsCritical (differenceInDays expirationDate now) = true ↔
      classify expirationDate now = Status.critical) ∧
    (renewalsWarning (differenceInDays expirationDate now) = true ↔
      classify expirationDate now = Status.warning) ∧
    (renewalsUpcoming (differenceInDays expirationDate now) = true ↔
      classify expirationDate now = Status.soon) := by
  have h30 : differenceInDays (now + 30) now = 30 := by
    simp only [differenceInDays]
    omega
  have h31 : differenceInDays (now + 31) now = 31 := by
    simp only [differenceInDays]
    omega
  refine ⟨getStatusInfo_expired_iff _, getStatusInfo_critical_iff _,
    getStatusInfo_warning_iff _, getStatusInfo_soon_iff _,
    getStatusInfo_active_iff _, ?_, ?_, ?_, ?_, ?_, ?_⟩
  · show getStatusInfo (differenceInDays (now + 30) now) = Status.critical
    rw [h30]
    decide
  · show getStatusInfo (differenceInDays (now + 31) now) = Status.warning
    rw [h31]
    decide
  · simp only [classify]
    rw [getStatusInfo_expired_iff]
    simp only [renewalsExpired, decide_eq_true_eq]
  · simp only [classify]
    rw [getStatusInfo_critical_iff]
    simp only [renewalsCritical, Bool.and_eq_true, decide_eq_true_eq]
  · simp only [classify]
    rw [getStatusInfo_warning_iff]
    simp only [renewalsWarning, Bool.and_eq_true, decide_eq_true_eq]
    omega
  · simp only [classify]
    rw [getStatusInfo_soon_iff]
    simp only [renewalsUpcoming, Bool.and_eq_true, decide_eq_true_eq]
    omega

/-- C1 counterexample: a certification expiring today (day difference 0) is
Critical for the five-way classifier, yet the admin expiring page's
within-30 stat card, its 30-day tab filter, and the dashboard
expiring-soon stat card all exclude it (their guards require
`days > 0`), so not every counting view derives its buckets from the
classifier's cut points. -/
theorem classifier_day0_view_mismatch :
    getStatusInfo 0 = Status.critical ∧
    adminWithin30 0 = false ∧
    timeFilterPred TimeFilter.days30 0 = false ∧
    statsExpiringSoon 0 = false := by
  decide

/-- C2 (amended): the status filter's buckets are active for days > 90,
expiring for 1 ≤ days ≤ 90, and expired for days < 0; the dashboard's
expiring-soon stat uses the same collapsed bucket; every certification
with days ≥ 1 falls in active or expiring; and a listed certification with
1 ≤ days ≤ 90 is included by the filter (with empty search text).  Day 0
is excluded from every bucket except `all`. -/
theorem statusFilter_expiring_bucket (daysUntil : Certification → Int)
    (certs : List Certification) (cert : Certification) :
    (∀ d : Int, statusFilterPred StatusFilter.expiring d = true ↔
      1 ≤ d ∧ d ≤ 90) ∧
    (∀ d : Int, statusFilterPred StatusFilter.active d = true ↔ 90 < d) ∧
    (∀ d : Int, statusFilterPred StatusFilter.expired d = true ↔ d < 0) ∧
    (∀ d : Int, statsExpiringSoon d = statusFilterPred StatusFilter.expiring d) ∧
    (∀ d : Int, 1 ≤ d → (statusFilterPred StatusFilter.active d = true ∨
      statusFilterPred StatusFilter.expiring d = true)) ∧
    (cert ∈ certs → 1 ≤ daysUntil cert → daysUntil cert ≤ 90 →
      cert ∈ filteredCertifications daysUntil "" StatusFilter.expiring certs) := by
  refine ⟨?_, ?_, ?_, ?_, ?_, ?_⟩
  · intro d
    simp only [statusFilterPred, Bool.and_eq_true, decide_eq_true_eq]
    omega
  · intro d
    simp only [statusFilterPred, decide_eq_true_eq]
  · intro d
    simp only [statusFilterPred, decide_eq_true_eq]
  · intro d
    simp only [statsExpiringSoon, statusFilterPred]
  · intro d hd
    simp only [statusFilterPred, Bool.and_eq_true, decide_eq_true_eq]
    omega
  · intro hmem h1 h90
    simp only [filteredCertifications, List.mem_filter, Bool.and_eq_true]
    refine ⟨hmem, matchesSearch_empty cert, ?_⟩
    simp only [statusFilterPred, Bool.and_eq_true, decide_eq_true_eq]
    omega

/-- Witness for the C2 theorem at a concrete store. -/
theorem statusFilter_expiring_bucket_witness :
    sampleCert ∈ filteredCertifications (fun _ => 45) ""
      StatusFilter.expiring [sampleCert] :=
  (statusFilter_expiring_bucket (fun _ => 45) [sampleCert] sampleCert).2.2.2.2.2
    (by simp) (by decide) (by decide)

/-- C2 counterexample: a certification expiring today (day difference 0) is
not included by the `expiring` status filter (nor by `active` or
`expired`), so the filter's expiring bucket is not 0–90 inclusive. -/
theorem statusFilter_day0_excluded :
    statusFilterPred StatusFilter.expiring 0 = false ∧
    statusFilterPred StatusFilter.active 0 = false ∧
    statusFilterPred StatusFilter.expired 0 = false ∧
    filteredCertifications (fun _ => 0) "" StatusFilter.expiring [sampleCert] = [] := by
  refine ⟨rfl, rfl, rfl, ?_⟩
  simp [filteredCertifications, statusFilterPred]

/-- C3 (amended): `create` appends a record whose id is the generated uuid;
assuming the generated uuid differs from every stored id, the new id is
distinct from all existing ids and the store afterwards contains both the
new record and all old ones.  A missing `credentialId` defaults to the
empty string, but missing `certificateUrl` and `notes` are not defaulted —
the created record carries no such keys at all — and missing dates default
to today's date; a missing `userId` defaults to the empty string. -/
theorem createCertification_spec (certs : List Certification)
    (genId today : String) (data : CertPatch)
    (hfresh : ∀ c ∈ certs, c.id ≠ genId) :
    (createCertification certs genId today data).2.id = genId ∧
    (createCertification certs genId today data).2 ∈
      (createCertification certs genId today data).1 ∧
    (∀ c ∈ certs, c.id ≠ (createCertification certs genId today data).2.id) ∧
    (∀ c ∈ certs, c ∈ (createCertification certs genId today data).1) ∧
    (data.credentialId = none →
      (createCertification certs genId today data).2.credentialId = some "") ∧
    (createCertification certs genId today data).2.certificateUrl = none ∧
    (createCertification certs genId today data).2.notes = none ∧
    (data.userId = none →
      (createCertification certs genId today data).2.userId = "") ∧
    (data.issueDate = none →
      (createCertification certs genId today data).2.issueDate = today) ∧
    (data.expirationDate = none →
      (createCertification certs genId today data).2.expirationDate = today) := by
  refine ⟨rfl, by simp [createCertification], ?_, ?_, ?_, rfl, rfl, ?_, ?_, ?_⟩
  · intro c hc
    simpa [createCertification] using hfresh c hc
  · intro c hc
    simp [createCertification, hc]
  · intro h
    simp [createCertification, h, jsOrOpt]
  · intro h
    simp [createCertification, h, jsOr]
  · intro h
    simp [createCertification, h, jsOr]
  · intro h
    simp [createCertification, h, jsOr]

/-- Witness for the C3 theorem on the empty store. -/
theorem createCertification_spec_witness :
    (createCertification [] "uuid-1" "2026-10-11" emptyPatch).2.id = "uuid-1" ∧
    (createCertification [] "uuid-1" "2026-10-11" emptyPatch).2 ∈
      (createCertification [] "uuid-1" "2026-10-11" emptyPatch).1 ∧
    (∀ c ∈ ([] : List Certification), c.id ≠
      (createCertification [] "uuid-1" "2026-10-11" emptyPatch).2.id) ∧
    (∀ c ∈ ([] : List Certification), c ∈
      (createCertification [] "uuid-1" "2026-10-11" emptyPatch).1) ∧
    (emptyPatch.credentialId = none →
      (createCertification [] "uuid-1" "2026-10-11" emptyPatch).2.credentialId = some "") ∧
    (createCertification [] "uuid-1" "2026-10-11" emptyPatch).2.certificateUrl = none ∧
    (createCertification [] "uuid-1" "2026-10-11" emptyPatch).2.notes = none ∧
    (emptyPatch.userId = none →
      (createCertification [] "uuid-1" "2026-10-11" emptyPatch).2.userId = "") ∧
    (emptyPatch.issueDate = none →
      (createCertification [] "uuid-1" "2026-10-11" emptyPatch).2.issueDate = "2026-10-11") ∧
    (emptyPatch.expirationDate = none →
      (createCertification [] "uuid-1" "2026-10-11" emptyPatch).2.expirationDate = "2026-10-11") :=
  createCertification_spec [] "uuid-1" "2026-10-11" emptyPatch (by simp)

/-- C3 counterexample: creating a certification from the empty partial
leaves `certificateUrl` and `notes` absent (`undefined`), not the empty
string the claim requires for every missing optional field (only
`credentialId` is defaulted to `""`). -/
theorem createCertification_optional_not_defaulted :
    (createCertification [] "uuid-1" "2026-10-11" emptyPatch).2.certificateUrl = none ∧
    (createCertification [] "uuid-1" "2026-10-11" emptyPatch).2.notes = none ∧
    ¬ ((createCertification [] "uuid-1" "2026-10-11" emptyPatch).2.certificateUrl = some "" ∧
       (createCertification [] "uuid-1" "2026-10-11" emptyPatch).2.notes = some "") ∧
    (createCertification [] "uuid-1" "2026-10-11" emptyPatch).2.credentialId = some "" := by
  refine ⟨rfl, rfl, ?_, rfl⟩
  intro h
  simpa [createCertification] using h.1

/-- C4: updating only the expiration date merges onto the stored record:
the updated record carries the new expiration date and every other field
unchanged, the store keeps every other record in place (the list splits as
`pre ++ old :: post` before and `pre ++ merged :: post` after), reading the
id afterwards returns the merged record, and an unknown id fails with
`Not found` (the store is untouched: the error is thrown before any
write). -/
theorem update_expiration_merge (certs : List Certification) (i x : String) :
    (∀ c, getCertById certs i = some c →
      ∃ pre post,
        certs = pre ++ c :: post ∧
        (∀ d ∈ pre, d.id ≠ i) ∧
        updateCertification certs i (expPatch x) =
          .ok (pre ++ applyPatch c (expPatch x) :: post,
            applyPatch c (expPatch x)) ∧
        getCertById (pre ++ applyPatch c (expPatch x) :: post) i =
          some (applyPatch c (expPatch x)) ∧
        (applyPatch c (expPatch x)).expirationDate = x ∧
        (applyPatch c (expPatch x)).id = c.id ∧
        (applyPatch c (expPatch x)).userId = c.userId ∧
        (applyPatch c (expPatch x)).name = c.name ∧
        (applyPatch c (expPatch x)).issuingOrganization =
          c.issuingOrganization ∧
        (applyPatch c (expPatch x)).issueDate = c.issueDate ∧
        (applyPatch c (expPatch x)).credentialId = c.credentialId ∧
        (applyPatch c (expPatch x)).certificateUrl = c.certificateUrl ∧
        (applyPatch c (expPatch x)).notes = c.notes) ∧
    (getCertById certs i = none →
      updateCertification certs i (expPatch x) = .error "Not found") := by
  constructor
  · intro c hc
    obtain ⟨pre, post, hs, hp, hu⟩ := updateCertification_found (expPatch x) hc
    have hcid : c.id = i := getCertById_id hc
    have hid : (applyPatch c (expPatch x)).id = i := hcid
    exact ⟨pre, post, hs, hp, hu, getCertById_append_cons hp hid, rfl, rfl,
      rfl, rfl, rfl, rfl, rfl, rfl, rfl⟩
  · exact updateCertification_notFound _

/-- Witness for the C4 theorem at a concrete one-record store. -/
theorem update_expiration_merge_witness :
    (∃ pre post,
      [sampleCert] = pre ++ sampleCert :: post ∧
      (∀ d ∈ pre, d.id ≠ "cert-1") ∧
      updateCertification [sampleCert] "cert-1" (expPatch "2030-01-01") =
        .ok (pre ++ applyPatch sampleCert (expPatch "2030-01-01") :: post,
          applyPatch sampleCert (expPatch "2030-01-01")) ∧
      getCertById
          (pre ++ applyPatch sampleCert (expPatch "2030-01-01") :: post)
          "cert-1" =
        some (applyPatch sampleCert (expPatch "2030-01-01")) ∧
      (applyPatch sampleCert (expPatch "2030-01-01")).expirationDate =
        "2030-01-01" ∧
      (applyPatch sampleCert (expPatch "2030-01-01")).id = sampleCert.id ∧
      (applyPatch sampleCert (expPatch "2030-01-01")).userId =
        sampleCert.userId ∧
      (applyPatch sampleCert (expPatch "2030-01-01")).name =
        sampleCert.name ∧
      (applyPatch sampleCert (expPatch "2030-01-01")).issuingOrganization =
        sampleCert.issuingOrganization ∧
      (applyPatch sampleCert (expPatch "2030-01-01")).issueDate =
        sampleCert.issueDate ∧
      (applyPatch sampleCert (expPatch "2030-01-01")).credentialId =
        sampleCert.credentialId ∧
      (applyPatch sampleCert (expPatch "2030-01-01")).certificateUrl =
        sampleCert.certificateUrl ∧
      (applyPatch sampleCert (expPatch "2030-01-01")).notes =
        sampleCert.notes) ∧
    updateCertification [sampleCert] "missing-id" (expPatch "2030-01-01") =
      .error "Not found" :=
  ⟨(update_expiration_merge [sampleCert] "cert-1" "2030-01-01").1 sampleCert
      (by decide),
    (update_expiration_merge [sampleCert] "missing-id" "2030-01-01").2
      (by decide)⟩

/-- C7: after a delete no record with the deleted id remains, deleting the
same id twice leaves the store exactly as deleting it once (a second
delete does not throw — the operation is a total function on the store),
and deleting an id nobody has is a silent no-op. -/
theorem deleteCertification_spec (certs : List Certification) (i : String) :
    (∀ c ∈ deleteCertification certs i, c.id ≠ i) ∧
    deleteCertification (deleteCertification certs i) i =
      deleteCertification certs i ∧
    ((∀ c ∈ certs, c.id ≠ i) → deleteCertification certs i = certs) := by
  refine ⟨?_, ?_, ?_⟩
  · intro c hc
    have h := List.of_mem_filter hc
    simpa using h
  · simp [deleteCertification, List.filter_filter, Bool.and_self]
  · intro h
    rw [deleteCertification, List.filter_eq_self.mpr]
    intro a ha
    simpa using h a ha

/-- Witness for the C7 theorem at a concrete one-record store. -/
theorem deleteCertification_spec_witness :
    deleteCertification [sampleCert] "missing-id" = [sampleCert] ∧
    deleteCertification (deleteCertification [sampleCert] "cert-1")
      "cert-1" = deleteCertification [sampleCert] "cert-1" :=
  ⟨(deleteCertification_spec [sampleCert] "missing-id").2.2 (by decide),
    (deleteCertification_spec [sampleCert] "cert-1").2.1⟩

/-- C8 (amended): for every nonempty user id the listing equals the filter
of the full list by owner; a `null`/`undefined` argument yields the empty
list, and so does the empty string — the empty-string owner written by
`createCertification` for a missing userId is therefore not retrievable
(the guard `if (!userId)` treats it as unset). -/
theorem getCertificationsByUser_spec (certs : List Certification)
    (u : String) :
    (u ≠ "" → getCertificationsByUser certs (some u) =
      certs.filter (fun c => c.userId = u)) ∧
    getCertificationsByUser certs none = [] ∧
    getCertificationsByUser certs (some "") = [] := by
  refine ⟨?_, rfl, ?_⟩
  · intro h
    simp [getCertificationsByUser, h]
  · simp [getCertificationsByUser]

/-- Witness for the C8 theorem at a concrete two-record store. -/
theorem getCertificationsByUser_spec_witness :
    getCertificationsByUser [sampleCert, orphanCert] (some "2") =
      [sampleCert] := by
  have h := (getCertificationsByUser_spec [sampleCert, orphanCert] "2").1
    (by decide)
  rw [h]
  decide

/-- C8 counterexample: a store holds a certification whose userId is the
empty string, yet listing by that very value returns the empty list, not
the record — so listByUser does not return exactly the records whose
userId equals the argument for every user id. -/
theorem getCertificationsByUser_empty_id_counterexample :
    orphanCert.userId = "" ∧
    getCertificationsByUser [orphanCert] (some "") = [] ∧
    [orphanCert].filter (fun c => c.userId = "") = [orphanCert] := by
  refine ⟨rfl, rfl, by decide⟩

/-- C10: the shallow merge copies every key present in the partial onto the
stored record, including `userId`: updating an existing record with a
partial carrying a new userId succeeds and reassigns ownership while every
other field is unchanged; and a partial carrying every key (including
`id`) replaces the record wholesale, so no field is protected. -/
theorem update_copies_userId (certs : List Certification)
    (i newUid : String) :
    (∀ c, getCertById certs i = some c →
      ∃ certs2, updateCertification certs i (userIdPatch newUid) =
          .ok (certs2, applyPatch c (userIdPatch newUid)) ∧
        (applyPatch c (userIdPatch newUid)).userId = newUid ∧
        (applyPatch c (userIdPatch newUid)).id = c.id ∧
        (applyPatch c (userIdPatch newUid)).name = c.name ∧
        (applyPatch c (userIdPatch newUid)).issuingOrganization =
          c.issuingOrganization ∧
        (applyPatch c (userIdPatch newUid)).issueDate = c.issueDate ∧
        (applyPatch c (userIdPatch newUid)).expirationDate =
          c.expirationDate ∧
        (applyPatch c (userIdPatch newUid)).credentialId = c.credentialId ∧
        (applyPatch c (userIdPatch newUid)).certificateUrl =
          c.certificateUrl ∧
        (applyPatch c (userIdPatch newUid)).notes = c.notes) ∧
    (∀ c v, applyPatch c (fullPatchOf v) = v) := by
  constructor
  · intro c hc
    obtain ⟨pre, post, _, _, hu⟩ :=
      updateCertification_found (userIdPatch newUid) hc
    exact ⟨pre ++ applyPatch c (userIdPatch newUid) :: post, hu, rfl, rfl,
      rfl, rfl, rfl, rfl, rfl, rfl, rfl⟩
  · intro c v
    rfl

/-- Witness for the C10 theorem: ownership of the sample record is
reassigned from user "2" to user "99". -/
theorem update_copies_userId_witness :
    ∃ certs2,
      updateCertification [sampleCert] "cert-1" (userIdPatch "99") =
        .ok (certs2, applyPatch sampleCert (userIdPatch "99")) ∧
      (applyPatch sampleCert (userIdPatch "99")).userId = "99" ∧
      (applyPatch sampleCert (userIdPatch "99")).id = sampleCert.id ∧
      (applyPatch sampleCert (userIdPatch "99")).name = sampleCert.name ∧
      (applyPatch sampleCert (userIdPatch "99")).issuingOrganization =
        sampleCert.issuingOrganization ∧
      (applyPatch sampleCert (userIdPatch "99")).issueDate =
        sampleCert.issueDate ∧
      (applyPatch sampleCert (userIdPatch "99")).expirationDate =
        sampleCert.expirationDate ∧
      (applyPatch sampleCert (userIdPatch "99")).credentialId =
        sampleCert.credentialId ∧
      (applyPatch sampleCert (userIdPatch "99")).certificateUrl =
        sampleCert.certificateUrl ∧
      (applyPatch sampleCert (userIdPatch "99")).notes = sampleCert.notes :=
  (update_copies_userId [sampleCert] "cert-1" "99").1 sampleCert (by decide)

lemma registerLocal_ok_inv {us : UserStore} {d : RegisterData}
    {pub : PublicUser} {us2 : UserStore}
    (h : registerLocal us d = (.ok pub, us2)) :
    findUser us d.username = none ∧
      us2 = us ++ [(d.username, regUser us d)] ∧
      pub = stripPassword (regUser us d) := by
  unfold registerLocal at h
  cases hf : findUser us d.username with
  | some u =>
    rw [hf] at h
    exact absurd (congrArg Prod.fst h) (by simp)
  | none =>
    rw [hf] at h
    have h1 := congrArg Prod.fst h
    have h2 := congrArg Prod.snd h
    simp only [Except.ok.injEq] at h1 h2
    exact ⟨rfl, h2.symm, h1.symm⟩

lemma loginLocal_ok_inv {us : UserStore} {username password : String}
    {pub : PublicUser} (h : loginLocal us username password = .ok pub) :
    ∃ u, findUser us username = some u ∧ u.password = some password ∧
      pub = stripPassword u := by
  unfold loginLocal at h
  cases hf : findUser us username with
  | none =>
    rw [hf] at h
    exact absurd h (by simp)
  | some u =>
    rw [hf] at h
    replace h : (if u.password = some password then
        Except.ok (stripPassword u) else
        Except.error "401: Invalid credentials") = Except.ok pub := h
    by_cases hp : u.password = some password
    · rw [if_pos hp] at h
      simp only [Except.ok.injEq] at h
      exact ⟨u, rfl, hp, h.symm⟩
    · rw [if_neg hp] at h
      exact absurd h (by simp)

/-- C5: `loginLocal` fails with the Unauthorized error exactly when the
username is unknown or the stored password is not strictly equal to the
supplied one; on success it returns the public projection of the matching
user.  In particular a known username with a wrong password is rejected
(success forces the stored password to equal the supplied one). -/
theorem loginLocal_spec (us : UserStore) (username password : String) :
    (findUser us username = none →
      loginLocal us username password = .error "401: Invalid credentials") ∧
    (∀ u, findUser us username = some u → u.password ≠ some password →
      loginLocal us username password = .error "401: Invalid credentials") ∧
    (∀ u, findUser us username = some u → u.password = some password →
      loginLocal us username password = .ok (stripPassword u)) ∧
    (∀ pub, loginLocal us username password = .ok pub →
      ∃ u, findUser us username = some u ∧ u.password = some password ∧
        pub = stripPassword u) := by
  refine ⟨?_, ?_, ?_, fun pub h => loginLocal_ok_inv h⟩
  · intro h
    simp [loginLocal, h]
  · intro u hu hp
    simp [loginLocal, hu, hp]
  · intro u hu hp
    simp [loginLocal, hu, hp]

/-- Witness for the C5 theorem on the seeded demo store: the demo admin is
rejected with a wrong password and accepted with the right one. -/
theorem loginLocal_spec_witness :
    loginLocal demoUsers "admin" "wrong" =
      .error "401: Invalid credentials" ∧
    loginLocal demoUsers "admin" "admin123" = .ok (stripPassword demoAdmin) :=
  ⟨(loginLocal_spec demoUsers "admin" "wrong").2.1 demoAdmin (by decide)
      (by decide),
    (loginLocal_spec demoUsers "admin" "admin123").2.2.1 demoAdmin
      (by decide) (by decide)⟩

/-- C6: registering the same username twice makes the second call fail
with the Conflict error and leave the store exactly as the first call left
it; the first registration's record is still found under the username
afterwards. -/
theorem registerLocal_conflict (us : UserStore) (d1 d2 : RegisterData)
    (hname : d2.username = d1.username) :
    ∀ pub us2, registerLocal us d1 = (.ok pub, us2) →
      registerLocal us2 d2 = (.error "409: Username already exists", us2) ∧
      findUser us2 d1.username = some (regUser us d1) ∧
      stripPassword (regUser us d1) = pub := by
  intro pub us2 h
  obtain ⟨hf, hus2, hpub⟩ := registerLocal_ok_inv h
  have hfind : findUser us2 d1.username = some (regUser us d1) := by
    rw [hus2, findUser_append _ hf]
    simp [findUser]
  refine ⟨?_, hfind, hpub.symm⟩
  unfold registerLocal
  rw [hname, hfind]

/-- Witness for the C6 theorem: registering alice on the empty store and
then registering the same username again. -/
theorem registerLocal_conflict_witness :
    registerLocal [("alice", aliceUser)] regAlice2 =
      (.error "409: Username already exists", [("alice", aliceUser)]) ∧
    findUser [("alice", aliceUser)] regAlice1.username =
      some (regUser [] regAlice1) ∧
    stripPassword (regUser [] regAlice1) = stripPassword aliceUser :=
  registerLocal_conflict [] regAlice1 regAlice2 rfl
    (stripPassword aliceUser) [("alice", aliceUser)] (by rfl)

/-- C9: every read operation returns only the public projection.
`listUsers` maps the password-stripping projection over the stored
records; a successful `register` and a successful `login` each return the
projection of a stored record; and the projection carries no password
information — it is invariant under changing the stored password. -/
theorem users_password_stripped (us : UserStore) :
    getAllUsers us = us.map (fun p => stripPassword p.2) ∧
    (∀ su pw, stripPassword { su with password := pw } = stripPassword su) ∧
    (∀ d pub us2, registerLocal us d = (.ok pub, us2) →
      ∃ su, (d.username, su) ∈ us2 ∧ pub = stripPassword su) ∧
    (∀ username password pub, loginLocal us username password = .ok pub →
      ∃ su, findUser us username = some su ∧ pub = stripPassword su) := by
  refine ⟨rfl, fun su pw => rfl, ?_, ?_⟩
  · intro d pub us2 h
    obtain ⟨_, hus2, hpub⟩ := registerLocal_ok_inv h
    exact ⟨regUser us d, by simp [hus2], hpub⟩
  · intro username password pub h
    obtain ⟨u, hu, _, hpub⟩ := loginLocal_ok_inv h
    exact ⟨u, hu, hpub⟩

/-- Witness for the C9 theorem on the seeded demo store. -/
theorem users_password_stripped_witness :
    stripPassword { demoJohn with password := none } =
      stripPassword demoJohn ∧
    ∃ su, findUser demoUsers "john" = some su ∧
      stripPassword demoJohn = stripPassword su :=
  ⟨(users_password_stripped demoUsers).2.1 demoJohn none,
    (users_password_stripped demoUsers).2.2.2 "john" "user123"
      (stripPassword demoJohn) (by rfl)⟩

end CertTrack

